import Mathlib

/-!
Verification of the JWK codec-dispatch layer (`authlib/jose/rfc7517/jwk.py`).

The Python module defines a codec interface `JWKAlgorithm` and a dispatcher
`JsonWebKey` holding a registry `_algorithms : dict` from key-type tag to
codec.  `loads` turns a JWK mapping (or a JWK set) into a key, `dumps` turns
a key into a JWK mapping.  We shallowly embed the dispatcher: Python dicts
become insertion-ordered association lists, JSON-ish values become an
inductive `JValue` (with `null` standing for Python `None`), and each
distinct `raise` site in the dispatcher becomes a distinct constructor of
`JwkError`.  Codec plugins are abstract: a `JWKAlgorithm` record carries the
plugin's `loads` / `dumps` / `prepare_key` as arbitrary functions into
`Except String`, lifted into dispatcher errors through `JwkError.codec` so
that plugin failures stay distinguishable from the dispatcher's own raises
(in Python they are distinct exception objects raised at distinct sites).
-/

/-- JSON-ish runtime values stored in JWK mappings.  `null` models Python
`None` (both a JSON `null` field value and the default returned by
`dict.get` for an absent field). -/
inductive JValue where
  | null : JValue
  | str : String → JValue
  | arr : List JValue → JValue
  | obj : List (String × JValue) → JValue
deriving Repr

/-- Decidable equality for `JValue` (the automatic derivation does not
handle the nested lists). -/
def JValue.decEq : (a b : JValue) → Decidable (a = b)
  | .null, .null => isTrue rfl
  | .null, .str _ => isFalse (fun h => JValue.noConfusion h)
  | .null, .arr _ => isFalse (fun h => JValue.noConfusion h)
  | .null, .obj _ => isFalse (fun h => JValue.noConfusion h)
  | .str _, .null => isFalse (fun h => JValue.noConfusion h)
  | .str _, .arr _ => isFalse (fun h => JValue.noConfusion h)
  | .str _, .obj _ => isFalse (fun h => JValue.noConfusion h)
  | .arr _, .null => isFalse (fun h => JValue.noConfusion h)
  | .arr _, .str _ => isFalse (fun h => JValue.noConfusion h)
  | .arr _, .obj _ => isFalse (fun h => JValue.noConfusion h)
  | .obj _, .null => isFalse (fun h => JValue.noConfusion h)
  | .obj _, .str _ => isFalse (fun h => JValue.noConfusion h)
  | .obj _, .arr _ => isFalse (fun h => JValue.noConfusion h)
  | .str a, .str b =>
      if h : a = b then isTrue (by rw [h])
      else isFalse (by intro hh; injection hh; contradiction)
  | .arr [], .arr [] => isTrue rfl
  | .arr [], .arr (_ :: _) =>
      isFalse (by intro hh; injection hh with h; exact List.noConfusion h)
  | .arr (_ :: _), .arr [] =>
      isFalse (by intro hh; injection hh with h; exact List.noConfusion h)
  | .arr (a :: as), .arr (b :: bs) =>
      match JValue.decEq a b, JValue.decEq (.arr as) (.arr bs) with
      | isTrue h1, isTrue h2 => isTrue (by
          injection h2 with h2; rw [h1, h2])
      | isFalse h1, _ => isFalse (by
          intro hh; injection hh with h; injection h with ha ht; exact h1 ha)
      | _, isFalse h2 => isFalse (by
          intro hh; injection hh with h; injection h with ha ht
          exact h2 (by rw [ht]))
  | .obj [], .obj [] => isTrue rfl
  | .obj [], .obj (_ :: _) =>
      isFalse (by intro hh; injection hh with h; exact List.noConfusion h)
  | .obj (_ :: _), .obj [] =>
      isFalse (by intro hh; injection hh with h; exact List.noConfusion h)
  | .obj ((ka, va) :: as), .obj ((kb, vb) :: bs) =>
      if hk : ka = kb then
        match JValue.decEq va vb, JValue.decEq (.obj as) (.obj bs) with
        | isTrue h1, isTrue h2 => isTrue (by
            injection h2 with h2; rw [hk, h1, h2])
        | isFalse h1, _ => isFalse (by
            intro hh; injection hh with h; injection h with hp ht
            exact h1 (congrArg Prod.snd hp))
        | _, isFalse h2 => isFalse (by
            intro hh; injection hh with h; injection h with hp ht
            exact h2 (by rw [ht]))
      else
        isFalse (by
          intro hh; injection hh with h; injection h with hp ht
          exact hk (congrArg Prod.fst hp))

instance : DecidableEq JValue := JValue.decEq

/-- A Python dict with string keys, as an insertion-ordered association
list with unique keys (the invariant Python dicts maintain). -/
abbrev Dict := List (String × JValue)

namespace Dict

/-- `d[k]` lookup as an option: first binding for `k` (unique by the dict
invariant). -/
def get? (d : Dict) (k : String) : Option JValue :=
  match d with
  | [] => none
  | (k', v) :: rest => if k' = k then some v else get? rest k

/-- Python `k in d`. -/
def hasKey (d : Dict) (k : String) : Bool :=
  (d.get? k).isSome

/-- Python `d.get(k)`: the stored value, or `None` when absent.  An absent
field and a field stored as `null` are indistinguishable, exactly as in
Python. -/
def pyget (d : Dict) (k : String) : JValue :=
  match d.get? k with
  | some v => v
  | none => JValue.null

/-- Python `d[k] = v`: overwrite in place when `k` is present (keeping its
position, as Python dicts do), append otherwise. -/
def insert (d : Dict) (k : String) (v : JValue) : Dict :=
  match d with
  | [] => [(k, v)]
  | (k', v') :: rest =>
      if k' = k then (k', v) :: rest else (k', v') :: insert rest k v

end Dict

/-- Python truthiness of a `JValue` (`if value:`): `None`, empty string,
empty list and empty dict are falsy. -/
def JValue.truthy : JValue → Bool
  | .null => false
  | .str s => s ≠ ""
  | .arr l => !l.isEmpty
  | .obj d => !d.isEmpty

/-- One distinct constructor per distinct raise site reachable from the
dispatcher, named after the spec's error taxonomy:

* `keyMismatch`     — `ValueError('Invalid JSON Web Key')` in `loads`;
* `unknownKeyType`  — `KeyError` from `self._algorithms[kty]`;
* `unsupportedKey`  — `ValueError('Unsupported key for JWK')` in `dumps`;
* `invalidKeySet`   — `ValueError('Invalid JWK set format')`;
* `keyNotFound`     — `ValueError('Invalid JWK kid')`;
* `invalidAlgorithm`— `ValueError('Invalid algorithm for JWK, ...')`;
* `missingField f`  — `KeyError(f)` from `obj[f]` on a mapping lacking `f`;
* `typeError`       — `TypeError`/`AttributeError` from duck-typing
  violations (e.g. indexing a list with a string, or iterating something
  that is not a sequence of mappings);
* `codec msg`       — an exception raised inside a codec plugin. -/
inductive JwkError where
  | keyMismatch : JwkError
  | unknownKeyType : JwkError
  | unsupportedKey : JwkError
  | invalidKeySet : JwkError
  | keyNotFound : JwkError
  | invalidAlgorithm : JwkError
  | missingField : String → JwkError
  | typeError : JwkError
  | codec : String → JwkError
deriving DecidableEq, Repr

/-- The codec contract (`class JWKAlgorithm`), over an abstract type `K` of
runtime keys.  `key_cls` is the decidable predicate
`isinstance(key, alg.key_cls)`; `algorithm_type` is the class attribute
checked by registration.  The plugin's fallible operations return
`Except String` — plugin exceptions, kept apart from dispatcher raises. -/
structure JWKAlgorithm (K : Type) where
  name : String
  algorithm_type : String := "JWK"
  key_cls : K → Bool
  prepare_key : K → Except String K
  loads : Dict → Except String K
  dumps : K → Except String Dict

/-- The dispatcher's `_algorithms` dict: tag → codec, insertion-ordered,
unique tags. -/
abbrev Registry (K : Type) := List (String × JWKAlgorithm K)

namespace Registry

/-- `self._algorithms[name]` lookup. -/
def lookup (r : Registry K) (n : String) : Option (JWKAlgorithm K) :=
  match r with
  | [] => none
  | (n', a) :: rest => if n' = n then some a else lookup rest n

/-- `self._algorithms[name] = alg`: overwrite in place, append when new. -/
def insert (r : Registry K) (n : String) (a : JWKAlgorithm K) : Registry K :=
  match r with
  | [] => [(n, a)]
  | (n', a') :: rest =>
      if n' = n then (n', a) :: rest else (n', a') :: insert rest n a

end Registry

/-- The argument of `register_algorithm`: either a codec instance or a
symbolic name to resolve against the process-wide default catalog. -/
inductive AlgOrName (K : Type) where
  | name : String → AlgOrName K
  | alg : JWKAlgorithm K → AlgOrName K

/-- `JsonWebKey.register_algorithm`.  `catalog` models the class attribute
`JWK_AVAILABLE_ALGORITHMS` (`none` = Python `None`; an empty dict is falsy,
so resolution is attempted only when the catalog is present and nonempty).
After the optional name resolution the local variable holds `None`, a
string, or a codec instance; `if not algorithm` then rejects falsy values,
and `algorithm.algorithm_type` raises `AttributeError` on a (nonempty)
string. -/
def register_algorithm (catalog : Option (List (String × JWKAlgorithm K)))
    (r : Registry K) (arg : AlgOrName K) : Except JwkError (Registry K) :=
  let resolved : Option (AlgOrName K) :=
    match arg, catalog with
    | .name s, some cat =>
        if !cat.isEmpty then (Registry.lookup cat s).map .alg
        else some (.name s)
    | .name s, none => some (.name s)
    | .alg a, _ => some (.alg a)
  match resolved with
  | none => .error .invalidAlgorithm
  | some (.name s) =>
      if s = "" then .error .invalidAlgorithm else .error .typeError
  | some (.alg a) =>
      if a.algorithm_type ≠ "JWK" then .error .invalidAlgorithm
      else .ok (r.insert a.name a)

/-- `JsonWebKey.__init__` with a list argument: register each entry in
order, starting from the empty registry. -/
def initRegistry (catalog : Option (List (String × JWKAlgorithm K)))
    (algorithms : List (AlgOrName K)) : Except JwkError (Registry K) :=
  algorithms.foldlM (register_algorithm catalog) []

/-- `JsonWebKey._load_obj`: `kty = obj['kty']` (a `KeyError` when absent, a
`TypeError` when the value is unhashable for the registry lookup), then
dispatch to the codec registered under that tag (`KeyError` — the spec's
`UnknownKeyTypeError` — when no codec is registered). -/
def load_obj (r : Registry K) (obj : Dict) : Except JwkError K :=
  match obj.get? "kty" with
  | none => .error (.missingField "kty")
  | some (.str kty) =>
      match r.lookup kty with
      | none => .error .unknownKeyType
      | some alg => (alg.loads obj).mapError .codec
  | some .null => .error .unknownKeyType
  | some _ => .error .typeError

/-- The Python value of the `kid` argument (`None` by default). -/
def kidValue : Option String → JValue
  | none => JValue.null
  | some s => JValue.str s

/-- The scan loop of `_load_jwk_set`: return the first entry whose
`key.get('kid')` equals the caller-supplied `kid` (Python `==`, so with
`kid = None` an absent and a `null`-valued `kid` field both match), loaded
as a single key; `ValueError('Invalid JWK kid')` when the scan exhausts the
sequence.  A non-mapping entry reached by the scan raises
`AttributeError` at `key.get`. -/
def scan_keys (r : Registry K) (keys : List JValue) (kid : Option String) :
    Except JwkError K :=
  match keys with
  | [] => .error .keyNotFound
  | .obj d :: rest =>
      if Dict.pyget d "kid" = kidValue kid then load_obj r d
      else scan_keys r rest kid
  | _ :: _ => .error .typeError

/-- Iterating the value found under `keys`: a list iterates its elements;
an empty string or empty mapping iterates nothing (so the scan falls
through to `KeyNotFound`); a nonempty string iterates characters and a
nonempty mapping iterates its string keys, on which `key.get` raises
`AttributeError`; `None` is not iterable. -/
def iter_keys (r : Registry K) (v : JValue) (kid : Option String) :
    Except JwkError K :=
  match v with
  | .arr l => scan_keys r l kid
  | .str s => if s = "" then .error .keyNotFound else .error .typeError
  | .obj d => if d.isEmpty then .error .keyNotFound else .error .typeError
  | .null => .error .typeError

/-- The argument of `loads`: a single mapping, or a bare sequence
(tuple/list). -/
inductive JwkInput where
  | obj : Dict → JwkInput
  | seq : List JValue → JwkInput

/-- Python `'kty' in obj`: key containment for a mapping, element
membership for a sequence. -/
def containsKty : JwkInput → Bool
  | .obj d => d.hasKey "kty"
  | .seq l => l.contains (JValue.str "kty")

/-- `JsonWebKey._load_jwk_set`: accept a bare sequence, or a mapping with a
`keys` field; anything else raises `ValueError('Invalid JWK set format')`
— then scan. -/
def load_jwk_set (r : Registry K) (input : JwkInput) (kid : Option String) :
    Except JwkError K :=
  match input with
  | .seq l => scan_keys r l kid
  | .obj d =>
      match d.get? "keys" with
      | some v => iter_keys r v kid
      | none => .error .invalidKeySet

/-- `JsonWebKey.loads`.  On a mapping with a `kty` field: when the supplied
`kid` is truthy, the mapping has a `kid` field and the two values differ
(Python `!=`, so a non-string stored value always differs from a supplied
string), raise `ValueError('Invalid JSON Web Key')`; otherwise load the
single key.  Without `kty`, treat the input as a key set.  A bare sequence
containing the string element `'kty'` is sent down the single-key path,
where every branch indexes the list with a string and raises `TypeError`. -/
def loads (r : Registry K) (input : JwkInput) (kid : Option String) :
    Except JwkError K :=
  match input with
  | .obj d =>
      if d.hasKey "kty" then
        match kid with
        | some s =>
            if s ≠ "" ∧ d.hasKey "kid" ∧ d.get? "kid" ≠ some (.str s) then
              .error .keyMismatch
            else load_obj r d
        | none => load_obj r d
      else load_jwk_set r (.obj d) kid
  | .seq l =>
      if l.contains (JValue.str "kty") then .error .typeError
      else load_jwk_set r (.seq l) kid

/-- `JsonWebKey._find_key_alg`: scan the registry in iteration order,
return the first codec whose `key_cls` accepts the key's runtime type
(`None` when no codec matches). -/
def find_key_alg (r : Registry K) (key : K) : Option (JWKAlgorithm K) :=
  match r with
  | [] => none
  | (_, a) :: rest => if a.key_cls key then some a else find_key_alg rest key

/-- The RFC 7517 §4 optional-parameter names recognized by
`_add_other_params`. -/
def OTHER_PARAMS : List String :=
  ["use", "key_ops", "alg", "kid", "x5u", "x5c", "x5t", "x5t#S256"]

/-- `_add_other_params`: for each recognized name, when `params.get(name)`
is truthy, write it into `obj` (overwriting).  Unrecognized names in
`params` are never consulted. -/
def add_other_params (obj : Dict) (params : Dict) : Dict :=
  OTHER_PARAMS.foldl
    (fun o k =>
      if (Dict.pyget params k).truthy then Dict.insert o k (Dict.pyget params k)
      else o)
    obj

/-- `JsonWebKey.dumps`.  Codec selection: an explicitly supplied `kty` is
looked up directly (`KeyError` — `UnknownKeyTypeError` — when absent),
otherwise `_find_key_alg` scans by runtime type and `None` triggers
`ValueError('Unsupported key for JWK')`.  Then the key is coerced through
`prepare_key` unless it already is an instance of the codec's key classes,
dumped by the codec, and — when `params` is nonempty (truthy) — the
recognized extra parameters are merged in. -/
def dumps (r : Registry K) (key : K) (kty : Option String) (params : Dict) :
    Except JwkError Dict := do
  let alg? : Option (JWKAlgorithm K) ←
    match kty with
    | none => pure (find_key_alg r key)
    | some t =>
        match r.lookup t with
        | none => Except.error .unknownKeyType
        | some a => pure (some a)
  match alg? with
  | none => Except.error .unsupportedKey
  | some alg => do
      let key ←
        if alg.key_cls key then pure key
        else (alg.prepare_key key).mapError JwkError.codec
      let obj ← (alg.dumps key).mapError JwkError.codec
      if params ≠ [] then pure (add_other_params obj params) else pure obj

/-! ### Concrete fixtures

Small concrete codecs over `String` keys, used to instantiate the abstract
theorems below on concrete inputs. -/

/-- A symmetric-secret (`oct`-style) codec over `String` keys: the secret
itself is stored under `k`. -/
def octAlg : JWKAlgorithm String where
  name := "oct"
  key_cls := fun _ => true
  prepare_key := fun k => .ok k
  loads := fun obj =>
    match Dict.get? obj "k" with
    | some (.str s) => .ok s
    | _ => .error "invalid oct key"
  dumps := fun k => .ok [("kty", .str "oct"), ("k", .str k)]

/-- A second codec carrying the same tag as `octAlg`, with observably
different behavior. -/
def octAlg2 : JWKAlgorithm String where
  name := "oct"
  key_cls := fun _ => true
  prepare_key := fun k => .ok k
  loads := fun _ => .ok "replaced"
  dumps := fun _ => .ok [("kty", .str "oct"), ("v", .str "2")]

/-- A codec whose accepted-type check rejects every key. -/
def fussyAlg : JWKAlgorithm String where
  name := "fussy"
  key_cls := fun _ => false
  prepare_key := fun _ => .error "cannot prepare"
  loads := fun _ => .error "cannot load"
  dumps := fun _ => .error "cannot dump"

/-- A registry holding only the `oct` codec. -/
def octReg : Registry String := [("oct", octAlg)]

/-- A key-set entry with `kid` `1`. -/
def kd1 : Dict := [("kty", .str "oct"), ("kid", .str "1"), ("k", .str "aa")]

/-- A key-set entry with `kid` `2`. -/
def kd2 : Dict := [("kty", .str "oct"), ("kid", .str "2"), ("k", .str "bb")]

/-- A key-set entry carrying no `kid` field. -/
def kdAnon : Dict := [("kty", .str "oct"), ("k", .str "cc")]

/-! ### Lemmas about dict, registry and scan operations -/

theorem Dict.hasKey_of_get? {d : Dict} {k : String} {v : JValue}
    (h : Dict.get? d k = some v) : Dict.hasKey d k = true := by
  simp [Dict.hasKey, h]

theorem Dict.get?_insert_self (d : Dict) (k : String) (v : JValue) :
    Dict.get? (Dict.insert d k v) k = some v := by
  induction d with
  | nil => simp [Dict.insert, Dict.get?]
  | cons hd tl ih =>
      obtain ⟨k', v'⟩ := hd
      by_cases h : k' = k
      · simp [Dict.insert, Dict.get?, h]
      · simp [Dict.insert, Dict.get?, h, ih]

theorem Dict.get?_insert_ne (d : Dict) (k f : String) (v : JValue)
    (hf : f ≠ k) :
    Dict.get? (Dict.insert d k v) f = Dict.get? d f := by
  induction d with
  | nil => simp [Dict.insert, Dict.get?, Ne.symm hf]
  | cons hd tl ih =>
      obtain ⟨k', v'⟩ := hd
      by_cases h : k' = k
      · subst h
        simp [Dict.insert, Dict.get?, Ne.symm hf]
      · simp [Dict.insert, Dict.get?, h, ih]

theorem find_key_alg_eq_find? (r : Registry K) (key : K) :
    find_key_alg r key =
      (r.find? (fun p => p.2.key_cls key)).map Prod.snd := by
  induction r with
  | nil => rfl
  | cons hd tl ih =>
      obtain ⟨n, a⟩ := hd
      by_cases h : a.key_cls key
      · simp [find_key_alg, h, List.find?_cons_of_pos]
      · simp [find_key_alg, h, List.find?_cons_of_neg, ih]

theorem scan_keys_map_eq_find? (r : Registry K) (keys : List Dict)
    (kid : Option String) :
    scan_keys r (keys.map JValue.obj) kid =
      match keys.find? (fun e => decide (Dict.pyget e "kid" = kidValue kid))
      with
      | some e => load_obj r e
      | none => Except.error .keyNotFound := by
  induction keys with
  | nil => rfl
  | cons hd tl ih =>
      by_cases h : Dict.pyget hd "kid" = kidValue kid
      · simp [scan_keys, h, List.find?_cons_of_pos]
      · simp [scan_keys, h, List.find?_cons_of_neg, ih]

theorem load_obj_ne_invalidKeySet (r : Registry K) (d : Dict) :
    load_obj r d ≠ Except.error JwkError.invalidKeySet := by
  unfold load_obj
  cases hk : Dict.get? d "kty" with
  | none => simp
  | some v =>
      cases v with
      | null => simp
      | str s =>
          cases hl : Registry.lookup r s with
          | none => simp [hl]
          | some a =>
              cases ha : a.loads d <;> simp [Except.mapError, hl, ha]
      | arr l => simp
      | obj o => simp

theorem scan_keys_ne_invalidKeySet (r : Registry K) (l : List JValue)
    (kid : Option String) :
    scan_keys r l kid ≠ Except.error JwkError.invalidKeySet := by
  induction l with
  | nil => simp [scan_keys]
  | cons hd tl ih =>
      cases hd with
      | null => simp [scan_keys]
      | str s => simp [scan_keys]
      | arr a => simp [scan_keys]
      | obj d =>
          by_cases h : Dict.pyget d "kid" = kidValue kid
          · simpa [scan_keys, h] using load_obj_ne_invalidKeySet r d
          · simpa [scan_keys, h] using ih

theorem iter_keys_ne_invalidKeySet (r : Registry K) (v : JValue)
    (kid : Option String) :
    iter_keys r v kid ≠ Except.error JwkError.invalidKeySet := by
  cases v with
  | null => simp [iter_keys]
  | str s =>
      by_cases h : s = "" <;> simp [iter_keys, h]
  | arr l => simpa [iter_keys] using scan_keys_ne_invalidKeySet r l kid
  | obj d =>
      by_cases h : d.isEmpty <;> simp [iter_keys, h]

theorem Registry.lookup_insert_self (r : Registry K) (n : String)
    (a : JWKAlgorithm K) :
    Registry.lookup (Registry.insert r n a) n = some a := by
  induction r with
  | nil => simp [Registry.insert, Registry.lookup]
  | cons hd tl ih =>
      obtain ⟨n', a'⟩ := hd
      by_cases h : n' = n
      · simp [Registry.insert, Registry.lookup, h]
      · simp [Registry.insert, Registry.lookup, h, ih]

theorem Registry.lookup_insert_ne (r : Registry K) (n m : String)
    (a : JWKAlgorithm K) (h : m ≠ n) :
    Registry.lookup (Registry.insert r n a) m = Registry.lookup r m := by
  induction r with
  | nil => simp [Registry.insert, Registry.lookup, Ne.symm h]
  | cons hd tl ih =>
      obtain ⟨n', a'⟩ := hd
      by_cases hn : n' = n
      · subst hn
        simp [Registry.insert, Registry.lookup, Ne.symm h]
      · simp [Registry.insert, Registry.lookup, hn, ih]

theorem Registry.insert_keys (r : Registry K) (n : String)
    (a : JWKAlgorithm K) :
    (Registry.insert r n a).map Prod.fst =
      if (Registry.lookup r n).isSome then r.map Prod.fst
      else r.map Prod.fst ++ [n] := by
  induction r with
  | nil => simp [Registry.insert, Registry.lookup]
  | cons hd tl ih =>
      obtain ⟨n', a'⟩ := hd
      by_cases h : n' = n
      · simp [Registry.insert, Registry.lookup, h]
      · simp only [Registry.insert, Registry.lookup, if_neg h, List.map_cons]
        rw [ih]
        by_cases hs : (Registry.lookup tl n).isSome <;> simp [hs]

theorem foldl_params_get? (ks : List String) (obj params : Dict)
    (f : String) :
    Dict.get?
      (ks.foldl
        (fun o k =>
          if (Dict.pyget params k).truthy then
            Dict.insert o k (Dict.pyget params k)
          else o)
        obj) f =
      if f ∈ ks ∧ (Dict.pyget params f).truthy = true
      then some (Dict.pyget params f) else Dict.get? obj f := by
  induction ks generalizing obj with
  | nil => simp
  | cons k rest ih =>
      simp only [List.foldl_cons]
      rw [ih]
      by_cases hmem : f ∈ rest ∧ (Dict.pyget params f).truthy = true
      · rw [if_pos hmem, if_pos ⟨List.mem_cons_of_mem k hmem.1, hmem.2⟩]
      · rw [if_neg hmem]
        by_cases hfk : f = k
        · subst hfk
          by_cases ht : (Dict.pyget params f).truthy
          · rw [if_pos ht, Dict.get?_insert_self,
              if_pos ⟨List.mem_cons_self f rest, ht⟩]
          · rw [if_neg ht, if_neg (fun hc => ht hc.2)]
        · have hout : ¬(f ∈ k :: rest ∧ (Dict.pyget params f).truthy = true)
            := by
            intro hc
            rcases List.mem_cons.mp hc.1 with hh | hh
            · exact hfk hh
            · exact hmem ⟨hh, hc.2⟩
          rw [if_neg hout]
          by_cases ht : (Dict.pyget params k).truthy
          · rw [if_pos ht, Dict.get?_insert_ne _ _ _ _ hfk]
          · rw [if_neg ht]

theorem add_other_params_get? (obj params : Dict) (f : String) :
    Dict.get? (add_other_params obj params) f =
      if f ∈ OTHER_PARAMS ∧ (Dict.pyget params f).truthy = true
      then some (Dict.pyget params f) else Dict.get? obj f :=
  foldl_params_get? OTHER_PARAMS obj params f

theorem add_other_params_nil (obj : Dict) :
    add_other_params obj [] = obj := rfl

/-- Once codec selection has resolved to `a` (by explicit tag lookup or by
runtime-type scan), `dumps` is the codec pipeline: coerce the key unless it
already is an instance of `key_cls`, dump it, merge extra parameters. -/
theorem dumps_eq_pipeline {K : Type} (r : Registry K) (key : K)
    (kty : Option String) (params : Dict) (a : JWKAlgorithm K)
    (hsel : (match kty with
             | none => find_key_alg r key
             | some t => Registry.lookup r t) = some a) :
    dumps r key kty params =
      (do
        let k ←
          if a.key_cls key then pure key
          else Except.mapError JwkError.codec (a.prepare_key key)
        let obj ← Except.mapError JwkError.codec (a.dumps k)
        if params ≠ [] then pure (add_other_params obj params)
        else pure obj) := by
  cases kty with
  | none =>
      have h : find_key_alg r key = some a := hsel
      simp only [dumps, h]
      rfl
  | some t =>
      have h : Registry.lookup r t = some a := hsel
      simp only [dumps, h]
      rfl

/-- Claim C1: for every registry and every single-key JWK mapping (one
with a `kty` field), if the caller supplies a kid, the mapping carries its
own `kid` field, and the two values differ, then `loads` fails with the
key-mismatch error — independently of the registered codecs, so no codec
load is attempted.  A supplied kid is a non-empty string: the source guards
the check with Python truthiness (`if kid and ...`); the falsy-kid edge is
claim C10. -/
theorem loads_kid_mismatch {K : Type} (r : Registry K) (d : Dict) (s : String)
    (hkty : Dict.hasKey d "kty" = true) (hs : s ≠ "")
    (hkid : Dict.hasKey d "kid" = true)
    (hne : Dict.get? d "kid" ≠ some (JValue.str s)) :
    loads r (.obj d) (some s) = Except.error JwkError.keyMismatch := by
  simp [loads, hkty, hs, hkid, hne]

/-- Witness: claim C1 at a concrete mismatching input. -/
theorem loads_kid_mismatch_witness :
    loads octReg
      (.obj [("kty", .str "oct"), ("kid", .str "A"), ("k", .str "c2VjcmV0")])
      (some "B") = Except.error JwkError.keyMismatch :=
  loads_kid_mismatch _ _ _ rfl (by decide) rfl (by simp [Dict.get?])

/-- Claim C10: on a single-key mapping with `kty` and `kid` fields, a
falsy supplied kid (the empty string) skips the kid-mismatch check
entirely: `loads` behaves exactly as the plain single-key load
`load_obj`, even when the supplied kid differs from the stored one. -/
theorem loads_falsy_kid {K : Type} (r : Registry K) (d : Dict)
    (hkty : Dict.hasKey d "kty" = true)
    (_hkid : Dict.hasKey d "kid" = true) :
    loads r (.obj d) (some "") = load_obj r d := by
  simp [loads, hkty]

/-- Witness: claim C10 at a concrete input whose stored kid differs from
the (empty) supplied one. -/
theorem loads_falsy_kid_witness :
    loads octReg
      (.obj [("kty", .str "oct"), ("kid", .str "A"), ("k", .str "s3cr3t")])
      (some "") =
      load_obj octReg
        [("kty", .str "oct"), ("kid", .str "A"), ("k", .str "s3cr3t")] :=
  loads_falsy_kid _ _ rfl rfl

/-- Claim C4: a tag with no registered codec fails with the
unknown-key-type error in both directions: `loads` on a single-key mapping
whose `kty` value is an unregistered tag, and `dumps` with an explicitly
supplied unregistered `kty`. -/
theorem loads_dumps_unknown_kty {K : Type} (r : Registry K) (d : Dict)
    (t : String) (key : K) (params : Dict)
    (hk : Dict.get? d "kty" = some (JValue.str t))
    (hl : Registry.lookup r t = none) :
    loads r (.obj d) none = Except.error JwkError.unknownKeyType ∧
    dumps r key (some t) params = Except.error JwkError.unknownKeyType := by
  constructor
  · simp [loads, Dict.hasKey_of_get? hk, load_obj, hk, hl]
  · simp only [dumps, hl]
    rfl

/-- Witness: claim C4 with an `RSA` tag against a registry holding only
the `oct` codec. -/
theorem loads_dumps_unknown_kty_witness :
    loads octReg (.obj [("kty", .str "RSA"), ("n", .str "abc")]) none =
      Except.error JwkError.unknownKeyType ∧
    dumps octReg "secret" (some "RSA") [] =
      Except.error JwkError.unknownKeyType :=
  loads_dumps_unknown_kty _ _ _ _ _ rfl rfl

/-- `Except` reduction: bind after success. -/
theorem except_bind_ok {e a b : Type} (x : a) (f : a → Except e b) :
    (Except.ok x : Except e a) >>= f = f x := rfl

/-- `Except` reduction: bind after `pure`. -/
theorem except_pure_bind {e a b : Type} (x : a) (f : a → Except e b) :
    (pure x : Except e a) >>= f = f x := rfl

/-- `Except` reduction: `pure` is `ok`. -/
theorem except_pure_eq {e a : Type} (x : a) :
    (pure x : Except e a) = Except.ok x := rfl

/-- `Except` reduction: bind after failure short-circuits. -/
theorem except_bind_error {e a b : Type} (err : e) (f : a → Except e b) :
    (Except.error err : Except e a) >>= f = Except.error err := rfl

/-- `Except` reduction: `mapError` leaves successes alone. -/
theorem except_mapError_ok {e f a : Type} (g : e → f) (x : a) :
    Except.mapError g (Except.ok x : Except e a) = Except.ok x := rfl

/-- `Except` reduction: `mapError` rewraps failures. -/
theorem except_mapError_error {e f a : Type} (g : e → f) (err : e) :
    Except.mapError g (Except.error err : Except e a) =
      Except.error (g err) := rfl

/-- Claim C3: `dumps` without an explicit `kty` selects the first codec
in registry iteration order whose accepted runtime key types (`key_cls`)
match the key — the result coincides with dumping against a registry
holding only that first matching codec — and fails with the
unsupported-key error when no registered codec accepts the key. -/
theorem dumps_selects_first_codec {K : Type} (r : Registry K) (key : K)
    (params : Dict) (n : String) (a : JWKAlgorithm K) :
    (r.find? (fun p => p.2.key_cls key) = some (n, a) →
      dumps r key none params = dumps [(n, a)] key none params) ∧
    (r.find? (fun p => p.2.key_cls key) = none →
      dumps r key none params = Except.error JwkError.unsupportedKey) := by
  constructor
  · intro h
    have hcls : a.key_cls key = true := by
      simpa using List.find?_some h
    have hf : find_key_alg r key = some a := by
      rw [find_key_alg_eq_find?, h]
      rfl
    have hf2 : find_key_alg [(n, a)] key = some a := by
      simp [find_key_alg, hcls]
    rw [dumps_eq_pipeline r key none params a hf,
      dumps_eq_pipeline [(n, a)] key none params a hf2]
  · intro h
    have hf : find_key_alg r key = none := by
      rw [find_key_alg_eq_find?, h]
      rfl
    simp only [dumps, hf]
    rfl

/-- Witness: claim C3 with a non-matching codec registered before the
matching one, and with an empty registry. -/
theorem dumps_selects_first_codec_witness :
    (dumps [("fussy", fussyAlg), ("oct", octAlg)] "secret" none [] =
      dumps [("oct", octAlg)] "secret" none []) ∧
    dumps ([] : Registry String) "secret" none [] =
      Except.error JwkError.unsupportedKey :=
  ⟨(dumps_selects_first_codec [("fussy", fussyAlg), ("oct", octAlg)]
      "secret" [] "oct" octAlg).1 rfl,
   (dumps_selects_first_codec [] "secret" [] "oct" octAlg).2 rfl⟩

/-- Claim C5: a successful `dumps` returns the codec dump output merged
with exactly those extra parameters whose names are among the recognized
RFC 7517 set (`OTHER_PARAMS`) and whose values are truthy (non-empty),
each overwriting any same-named codec-produced field; every other field of
the result is the codec output.  Unrecognized parameter names are never
consulted: they are silently dropped and cannot cause an error. -/
theorem dumps_merges_recognized_params {K : Type} (r : Registry K) (key : K)
    (kty : Option String) (params : Dict) (a : JWKAlgorithm K) (kc : K)
    (obj : Dict) (f : String)
    (hsel : (match kty with
             | none => find_key_alg r key
             | some t => Registry.lookup r t) = some a)
    (hprep : (if a.key_cls key then pure key
              else Except.mapError JwkError.codec (a.prepare_key key)) =
        Except.ok kc)
    (hdump : a.dumps kc = Except.ok obj) :
    dumps r key kty params = Except.ok (add_other_params obj params) ∧
    Dict.get? (add_other_params obj params) f =
      (if f ∈ OTHER_PARAMS ∧ (Dict.pyget params f).truthy = true
       then some (Dict.pyget params f) else Dict.get? obj f) := by
  refine ⟨?_, add_other_params_get? obj params f⟩
  rw [dumps_eq_pipeline r key kty params a hsel]
  cases hc : a.key_cls key with
  | true =>
      rw [if_pos hc] at hprep
      have hkey : key = kc :=
        Except.ok.inj (by rwa [except_pure_eq] at hprep)
      subst hkey
      by_cases hp : params = []
      · subst hp
        simp [hc, hdump, except_pure_bind, except_bind_ok,
          except_mapError_ok, except_pure_eq, add_other_params_nil]
      · simp [hc, hp, hdump, except_pure_bind, except_bind_ok,
          except_mapError_ok, except_pure_eq]
  | false =>
      rw [if_neg (by simp [hc])] at hprep
      by_cases hp : params = []
      · subst hp
        simp [hc, hprep, hdump, except_pure_bind, except_bind_ok,
          except_mapError_ok, except_pure_eq, add_other_params_nil]
      · simp [hc, hp, hprep, hdump, except_pure_bind, except_bind_ok,
          except_mapError_ok, except_pure_eq]

/-- Witness: claim C5 with a recognized parameter (`use`), an
unrecognized one (`foo`) and a falsy one (an empty `kid`). -/
theorem dumps_merges_recognized_params_witness :
    dumps octReg "secret" (some "oct")
      [("use", .str "sig"), ("foo", .str "bar"), ("kid", .str "")] =
      Except.ok (add_other_params [("kty", .str "oct"), ("k", .str "secret")]
        [("use", .str "sig"), ("foo", .str "bar"), ("kid", .str "")]) ∧
    Dict.get? (add_other_params [("kty", .str "oct"), ("k", .str "secret")]
        [("use", .str "sig"), ("foo", .str "bar"), ("kid", .str "")]) "use" =
      (if "use" ∈ OTHER_PARAMS ∧
          (Dict.pyget [("use", .str "sig"), ("foo", .str "bar"),
            ("kid", .str "")] "use").truthy = true
       then some (Dict.pyget [("use", .str "sig"), ("foo", .str "bar"),
         ("kid", .str "")] "use")
       else Dict.get? [("kty", .str "oct"), ("k", .str "secret")] "use") :=
  dumps_merges_recognized_params octReg "secret" (some "oct") _ octAlg
    "secret" _ "use" rfl rfl rfl

/-- Claim C8: round-trip.  When `dumps` selects codec `a` for `key`, the
codec dump output routes back to the same codec (its `kty` field equals
the registered tag of `a`), and the codec load and dump are mutually
inverse at this key, `loads (dumps key)` returns the original key. -/
theorem loads_dumps_roundtrip {K : Type} (r : Registry K)
    (a : JWKAlgorithm K) (key : K) (obj : Dict)
    (hfind : find_key_alg r key = some a)
    (hcls : a.key_cls key = true)
    (hdump : a.dumps key = Except.ok obj)
    (hkty : Dict.get? obj "kty" = some (JValue.str a.name))
    (hlook : Registry.lookup r a.name = some a)
    (hload : a.loads obj = Except.ok key) :
    dumps r key none [] = Except.ok obj ∧
    loads r (.obj obj) none = Except.ok key := by
  constructor
  · rw [dumps_eq_pipeline r key none [] a hfind, if_pos hcls]
    simp only [except_pure_bind]
    rw [hdump]
    simp only [except_mapError_ok, except_bind_ok]
    rw [if_neg (not_not_intro rfl)]
    rfl
  · simp [loads, Dict.hasKey_of_get? hkty, load_obj, hkty, hlook, hload,
      except_mapError_ok]

/-- Witness: claim C8 round-trips a concrete secret through the `oct`
codec. -/
theorem loads_dumps_roundtrip_witness :
    dumps octReg "secret" none [] =
      Except.ok [("kty", .str "oct"), ("k", .str "secret")] ∧
    loads octReg (.obj [("kty", .str "oct"), ("k", .str "secret")]) none =
      Except.ok "secret" :=
  loads_dumps_roundtrip octReg octAlg "secret" _ rfl rfl rfl rfl rfl rfl

/-- A bare sequence of mappings never contains a string element, so the
single-key membership test on it is false. -/
theorem map_obj_not_contains_str (l : List Dict) (s : String) :
    (l.map JValue.obj).contains (JValue.str s) = false := by
  induction l with
  | nil => rfl
  | cons hd tl ih =>
      have hb : (JValue.str s == JValue.obj hd) = false := by
        apply beq_eq_false_iff_ne.mpr
        intro h
        exact JValue.noConfusion h
      simp [List.contains_cons, hb, ih]

/-- Claim C2: for a key set presented either as a bare sequence or as a
mapping with a `keys` field, `loads` with a supplied kid scans the
sequence in order and returns the single-key load of the first element
whose `kid` field equals the supplied kid; when no element matches, it
fails with the key-not-found error. -/
theorem loads_set_first_kid_match {K : Type} (r : Registry K)
    (keys : List Dict) (s : String) (d : Dict)
    (hd : Dict.get? d "keys" = some (.arr (keys.map JValue.obj)))
    (hnk : Dict.hasKey d "kty" = false) :
    loads r (.seq (keys.map JValue.obj)) (some s) =
      (match keys.find?
          (fun e => decide (Dict.pyget e "kid" = JValue.str s)) with
       | some e => load_obj r e
       | none => Except.error JwkError.keyNotFound) ∧
    loads r (.obj d) (some s) =
      (match keys.find?
          (fun e => decide (Dict.pyget e "kid" = JValue.str s)) with
       | some e => load_obj r e
       | none => Except.error JwkError.keyNotFound) := by
  have hscan := scan_keys_map_eq_find? r keys (some s)
  simp only [kidValue] at hscan
  constructor
  · simp only [loads, map_obj_not_contains_str, Bool.false_eq_true,
      if_false, load_jwk_set]
    exact hscan
  · simp only [loads, hnk, Bool.false_eq_true, if_false, load_jwk_set, hd,
      iter_keys]
    exact hscan

/-- Witness: claim C2 on a two-element key set, in both input shapes. -/
theorem loads_set_first_kid_match_witness :
    loads octReg (.seq ([kd1, kd2].map JValue.obj)) (some "2") =
      (match [kd1, kd2].find?
          (fun e => decide (Dict.pyget e "kid" = JValue.str "2")) with
       | some e => load_obj octReg e
       | none => Except.error JwkError.keyNotFound) ∧
    loads octReg (.obj [("keys", .arr ([kd1, kd2].map JValue.obj))])
        (some "2") =
      (match [kd1, kd2].find?
          (fun e => decide (Dict.pyget e "kid" = JValue.str "2")) with
       | some e => load_obj octReg e
       | none => Except.error JwkError.keyNotFound) :=
  loads_set_first_kid_match octReg [kd1, kd2] "2" _ rfl rfl

/-- Claim C9: with the kid argument omitted (`None`), the key-set scan
matches and loads the first entry whose own `kid` field is absent or null
— rather than failing fast or returning the first key — and fails with the
key-not-found error exactly when every entry carries a non-null `kid`. -/
theorem loads_set_none_kid {K : Type} (r : Registry K) (keys : List Dict)
    (d : Dict)
    (hd : Dict.get? d "keys" = some (.arr (keys.map JValue.obj)))
    (hnk : Dict.hasKey d "kty" = false) :
    loads r (.seq (keys.map JValue.obj)) none =
      (match keys.find?
          (fun e => decide (Dict.pyget e "kid" = JValue.null)) with
       | some e => load_obj r e
       | none => Except.error JwkError.keyNotFound) ∧
    loads r (.obj d) none =
      (match keys.find?
          (fun e => decide (Dict.pyget e "kid" = JValue.null)) with
       | some e => load_obj r e
       | none => Except.error JwkError.keyNotFound) := by
  have hscan := scan_keys_map_eq_find? r keys none
  simp only [kidValue] at hscan
  constructor
  · simp only [loads, map_obj_not_contains_str, Bool.false_eq_true,
      if_false, load_jwk_set]
    exact hscan
  · simp only [loads, hnk, Bool.false_eq_true, if_false, load_jwk_set, hd,
      iter_keys]
    exact hscan

/-- Witness: claim C9 skips an entry with a kid and loads the first
kid-less entry. -/
theorem loads_set_none_kid_witness :
    loads octReg (.seq ([kd1, kdAnon].map JValue.obj)) none =
      (match [kd1, kdAnon].find?
          (fun e => decide (Dict.pyget e "kid" = JValue.null)) with
       | some e => load_obj octReg e
       | none => Except.error JwkError.keyNotFound) ∧
    loads octReg (.obj [("keys", .arr ([kd1, kdAnon].map JValue.obj))])
        none =
      (match [kd1, kdAnon].find?
          (fun e => decide (Dict.pyget e "kid" = JValue.null)) with
       | some e => load_obj octReg e
       | none => Except.error JwkError.keyNotFound) :=
  loads_set_none_kid octReg [kd1, kdAnon] _ rfl rfl

/-- Claim C6: an input to `loads` without a `kty` field is accepted as a
key set exactly when it is a bare sequence or a mapping containing a
`keys` field: a mapping without `keys` fails with the invalid-key-set
error, and a bare sequence never produces that error. -/
theorem invalid_key_set_shape {K : Type} (r : Registry K)
    (kid : Option String) (d : Dict) (l : List JValue)
    (hobj : Dict.hasKey d "kty" = false)
    (hseq : l.contains (JValue.str "kty") = false) :
    (loads r (.obj d) kid = Except.error JwkError.invalidKeySet ↔
      Dict.hasKey d "keys" = false) ∧
    loads r (.seq l) kid ≠ Except.error JwkError.invalidKeySet := by
  constructor
  · simp only [loads, hobj, Bool.false_eq_true, if_false, load_jwk_set]
    cases hk : Dict.get? d "keys" with
    | none => simp [Dict.hasKey, hk]
    | some v => simp [Dict.hasKey, hk, iter_keys_ne_invalidKeySet r v kid]
  · simp only [loads, hseq, Bool.false_eq_true, if_false, load_jwk_set]
    exact scan_keys_ne_invalidKeySet r l kid

/-- Witness: claim C6 on a mapping with neither `kty` nor `keys`, and on
an empty bare sequence. -/
theorem invalid_key_set_shape_witness :
    (loads ([] : Registry String) (.obj [("foo", .str "bar")]) none =
        Except.error JwkError.invalidKeySet ↔
      Dict.hasKey [("foo", .str "bar")] "keys" = false) ∧
    loads ([] : Registry String) (.seq []) none ≠
      Except.error JwkError.invalidKeySet :=
  invalid_key_set_shape [] none [("foo", .str "bar")] [] rfl rfl

/-- Claim C7: registering two codecs in succession under the same tag
leaves only the second active: lookups under the tag, single-key loads
dispatching on it, and `dumps` calls resolving it all consult the second
codec (the `dumps` result equals dumping against a registry holding only
the second codec); lookups of other tags are unchanged; and registration
inserts or overwrites the single registry entry for the codec name — the
registry key sequence either stays identical or gains exactly the one new
name. -/
theorem register_algorithm_override {K : Type}
    (cat : Option (List (String × JWKAlgorithm K))) (r : Registry K)
    (a1 a2 : JWKAlgorithm K) (d : Dict) (key : K) (params : Dict)
    (m : String)
    (h1 : a1.algorithm_type = "JWK") (h2 : a2.algorithm_type = "JWK")
    (hn : a1.name = a2.name)
    (hd : Dict.get? d "kty" = some (JValue.str a2.name))
    (hm : m ≠ a2.name) :
    register_algorithm cat r (.alg a1) =
      Except.ok (Registry.insert r a1.name a1) ∧
    register_algorithm cat (Registry.insert r a1.name a1) (.alg a2) =
      Except.ok
        (Registry.insert (Registry.insert r a1.name a1) a2.name a2) ∧
    Registry.lookup
        (Registry.insert (Registry.insert r a1.name a1) a2.name a2)
        a2.name = some a2 ∧
    load_obj (Registry.insert (Registry.insert r a1.name a1) a2.name a2) d =
      Except.mapError JwkError.codec (a2.loads d) ∧
    dumps (Registry.insert (Registry.insert r a1.name a1) a2.name a2) key
        (some a2.name) params =
      dumps [(a2.name, a2)] key (some a2.name) params ∧
    Registry.lookup
        (Registry.insert (Registry.insert r a1.name a1) a2.name a2) m =
      Registry.lookup r m ∧
    (Registry.insert (Registry.insert r a1.name a1) a2.name a2).map
        Prod.fst =
      (if (Registry.lookup r a1.name).isSome then r.map Prod.fst
       else r.map Prod.fst ++ [a1.name]) := by
  have hself :
      Registry.lookup
        (Registry.insert (Registry.insert r a1.name a1) a2.name a2)
        a2.name = some a2 :=
    Registry.lookup_insert_self _ a2.name a2
  refine ⟨?_, ?_, hself, ?_, ?_, ?_, ?_⟩
  · simp [register_algorithm, h1]
  · simp [register_algorithm, h2]
  · simp only [load_obj, hd, hself]
  · rw [dumps_eq_pipeline _ key (some a2.name) params a2 hself,
      dumps_eq_pipeline [(a2.name, a2)] key (some a2.name) params a2
        (Registry.lookup_insert_self [] a2.name a2)]
  · rw [Registry.lookup_insert_ne _ a2.name m a2 hm,
      Registry.lookup_insert_ne _ a1.name m a1 (hn ▸ hm)]
  · rw [Registry.insert_keys, Registry.insert_keys]
    have : Registry.lookup (Registry.insert r a1.name a1) a2.name =
        some a1 := by
      rw [← hn]
      exact Registry.lookup_insert_self r a1.name a1
    rw [this]
    rfl

/-- Witness: claim C7 replacing `octAlg` by `octAlg2` under the `oct`
tag. -/
theorem register_algorithm_override_witness :
    register_algorithm none ([] : Registry String) (.alg octAlg) =
      Except.ok (Registry.insert [] octAlg.name octAlg) ∧
    register_algorithm none (Registry.insert [] octAlg.name octAlg)
        (.alg octAlg2) =
      Except.ok
        (Registry.insert (Registry.insert [] octAlg.name octAlg)
          octAlg2.name octAlg2) ∧
    Registry.lookup
        (Registry.insert (Registry.insert [] octAlg.name octAlg)
          octAlg2.name octAlg2) octAlg2.name = some octAlg2 ∧
    load_obj
        (Registry.insert (Registry.insert [] octAlg.name octAlg)
          octAlg2.name octAlg2) [("kty", .str "oct")] =
      Except.mapError JwkError.codec (octAlg2.loads [("kty", .str "oct")]) ∧
    dumps
        (Registry.insert (Registry.insert [] octAlg.name octAlg)
          octAlg2.name octAlg2) "secret" (some octAlg2.name) [] =
      dumps [(octAlg2.name, octAlg2)] "secret" (some octAlg2.name) [] ∧
    Registry.lookup
        (Registry.insert (Registry.insert [] octAlg.name octAlg)
          octAlg2.name octAlg2) "RSA" = Registry.lookup [] "RSA" ∧
    (Registry.insert (Registry.insert [] octAlg.name octAlg)
        octAlg2.name octAlg2).map Prod.fst =
      (if (Registry.lookup ([] : Registry String) octAlg.name).isSome
       then ([] : Registry String).map Prod.fst
       else ([] : Registry String).map Prod.fst ++ [octAlg.name]) :=
  register_algorithm_override none [] octAlg octAlg2 [("kty", .str "oct")]
    "secret" [] "RSA" rfl rfl rfl rfl (by decide)
